import Mathlib

/-!
Shallow embedding of the `otp-session-lib` Rust crate (files `src/db.rs`,
`src/otp.rs`, `src/session.rs`, `src/lib.rs`).

Modelling conventions:
- The wall clock (`SystemTime::now().duration_since(UNIX_EPOCH).as_secs()`)
  is an explicit parameter `now : Nat` passed to each operation that reads it.
- The random generator `fastrand::u64(range)` is modelled by an explicit
  draw parameter; theorems hypothesise that the draw lies in the range the
  source passes to `fastrand`.
- `hashbrown::HashMap<String, u64>` is modelled as an association list
  `List (String × Nat)`; `insert` replaces the value of the first entry with
  the given key (or appends a fresh entry), `remove` drops the entries with
  the key, `len` is the list length.  Since a `HashMap` holds at most one
  entry per key, these coincide with map semantics on all reachable states.
- Rust `&self` methods cannot mutate the receiver, so `get` is also given a
  state-passing form `getS` returning the (unchanged) store.
- Fallible Rust signatures (`Result`) whose only code path is `Ok` are
  modelled by their success payload.
-/

/-- Embeds `SessionItem` (src/db.rs lines 6-11): a stored credential. -/
structure SessionItem where
  code : String
  user : String
  expires : Nat
deriving Repr, DecidableEq

/-- Embeds `SessionItem::new` (src/db.rs lines 19-28):
`expires = now.as_secs() + keep_alive`. -/
def SessionItem.new (code user : String) (keep_alive now : Nat) : SessionItem :=
  { code := code, user := user, expires := now + keep_alive }

/-- Embeds `SessionItem::has_expired` (src/db.rs lines 31-34):
`self.expires <= now.as_secs()`. -/
def SessionItem.has_expired (item : SessionItem) (now : Nat) : Bool :=
  item.expires ≤ now

/-- Embeds `DataStore` (src/db.rs lines 13-16): wraps `HashMap<String, u64>`. -/
structure DataStore where
  db : List (String × Nat)
deriving Repr, DecidableEq

/-- Models `HashMap::get` on the association list: value of the first entry
whose key matches. -/
def lookupKV : List (String × Nat) → String → Option Nat
  | [], _ => none
  | (k, v) :: rest, key => if k = key then some v else lookupKV rest key

/-- Models `HashMap::insert` on the association list: replace the value of
the first entry with this key, or append a fresh entry. -/
def insertKV : List (String × Nat) → String → Nat → List (String × Nat)
  | [], key, val => [(key, val)]
  | (k, v) :: rest, key, val =>
    if k = key then (key, val) :: rest else (k, v) :: insertKV rest key val

/-- Models `HashMap::remove` on the association list: drop the entries with
this key (a `HashMap` holds at most one). -/
def removeKV : List (String × Nat) → String → List (String × Nat)
  | [], _ => []
  | (k, v) :: rest, key =>
    if k = key then removeKV rest key else (k, v) :: removeKV rest key

/-- Embeds `DataStore::create` (src/db.rs lines 39-41). -/
def DataStore.create : DataStore := ⟨[]⟩

/-- Embeds `DataStore::create_key` (src/db.rs lines 44-46):
`format!("\x7b\x7d:\x7b\x7d", code, user)`. -/
def DataStore.create_key (_s : DataStore) (code user : String) : String :=
  code ++ ":" ++ user

/-- Embeds `DataStore::dbsize` (src/db.rs lines 49-51): `self.db.len()`. -/
def DataStore.dbsize (s : DataStore) : Nat :=
  s.db.length

/-- Embeds `DataStore::put` (src/db.rs lines 54-59): insert under the
composite key; the `Result` is always `Ok(())`, so the model returns the
new store. -/
def DataStore.put (s : DataStore) (item : SessionItem) : DataStore :=
  ⟨insertKV s.db (s.create_key item.code item.user) item.expires⟩

/-- Embeds `DataStore::get` (src/db.rs lines 62-81): look up the composite
key; absent gives `none`, an expired entry gives `none`, otherwise the
rebuilt item. -/
def DataStore.get (s : DataStore) (code user : String) (now : Nat) : Option SessionItem :=
  match lookupKV s.db (s.create_key code user) with
  | none => none
  | some value =>
    let item : SessionItem := { code := code, user := user, expires := value }
    if item.has_expired now then none else some item

/-- State-passing form of `DataStore::get`: the Rust method takes `&self`
and performs no mutation, so the resulting store is the input store. -/
def DataStore.getS (s : DataStore) (code user : String) (now : Nat) :
    Option SessionItem × DataStore :=
  (s.get code user now, s)

/-- Embeds `DataStore::remove` (src/db.rs lines 84-88): returns whether an
entry was present, together with the store with that key deleted. -/
def DataStore.remove (s : DataStore) (code user : String) : Bool × DataStore :=
  ((lookupKV s.db (s.create_key code user)).isSome,
    ⟨removeKV s.db (s.create_key code user)⟩)

/-- Embeds `OTP_TIMEOUT` (src/lib.rs line 9). -/
def OTP_TIMEOUT : Nat := 300

/-- Embeds `SESSION_TIMEOUT` (src/lib.rs line 12). -/
def SESSION_TIMEOUT : Nat := 14000

/-- Digit characters as the Rust formatter renders them: decimal digits for
values below 10, lowercase letters for 10-15 (`\x7b:x\x7d` formatting). -/
def digitChar (d : Nat) : Char :=
  if d < 10 then Char.ofNat (48 + d)
  else if d < 16 then Char.ofNat (87 + d)
  else '*'

/-- Most-significant-first digit rendering with explicit fuel (the fuel is
only an upper bound on the recursion depth, consumed once per step). -/
def renderAux (base : Nat) : Nat → Nat → List Char
  | 0, _ => []
  | fuel + 1, n =>
    if n < base then [digitChar n]
    else renderAux base fuel (n / base) ++ [digitChar (n % base)]

/-- Positional rendering of `n` in the given base, no padding, no sign:
models the Rust `format!("\x7b\x7d", n)` at base 10 and
`format!("\x7b:x\x7d", n)` at base 16. -/
def natToBase (base n : Nat) : String :=
  String.mk (renderAux base (n + 1) n)

/-- Embeds `Otp` (src/otp.rs lines 6-10). -/
structure Otp where
  keep_alive : Nat
  db : DataStore
deriving Repr, DecidableEq

/-- Embeds `Otp::new` (src/otp.rs lines 20-25). -/
def Otp.new : Otp :=
  { keep_alive := OTP_TIMEOUT, db := DataStore.create }

/-- Embeds `Otp::generate_code` (src/otp.rs lines 28-31):
`format!("\x7b\x7d", fastrand::u64(100_000..1_000_000))`; the random draw
`rnd` is the value `fastrand` returns. -/
def Otp.generate_code (_o : Otp) (rnd : Nat) : String :=
  natToBase 10 rnd

/-- Embeds `Otp::create_user_otp` (src/otp.rs lines 34-42): generate a code,
build a `SessionItem` with the configured `keep_alive`, store it, return the
code (the Result returned by the store is always Ok). -/
def Otp.create_user_otp (o : Otp) (user : String) (rnd now : Nat) : String × Otp :=
  (o.generate_code rnd,
    { o with db := o.db.put (SessionItem.new (o.generate_code rnd) user o.keep_alive now) })

/-- Embeds `Otp::is_valid` (src/otp.rs lines 45-49): `self.db.get(code, user).is_some()`. -/
def Otp.is_valid (o : Otp) (code user : String) (now : Nat) : Bool :=
  (o.db.get code user now).isSome

/-- Embeds `Otp::remove` (src/otp.rs lines 52-59): `Some(code)` when the
store removed something, `None` otherwise. -/
def Otp.remove (o : Otp) (code user : String) : Option String × Otp :=
  (if (o.db.remove code user).1 then some code else none,
    { o with db := (o.db.remove code user).2 })

/-- Embeds `Otp::dbsize` (src/otp.rs lines 62-64). -/
def Otp.dbsize (o : Otp) : Nat :=
  o.db.dbsize

/-- Embeds `Session` (src/session.rs lines 5-9). -/
structure Session where
  keep_alive : Nat
  db : DataStore
deriving Repr, DecidableEq

/-- Embeds `Session::new` (src/session.rs lines 19-24). -/
def Session.new : Session :=
  { keep_alive := SESSION_TIMEOUT, db := DataStore.create }

/-- Embeds `Session::generate_code` (src/session.rs lines 27-34):
`format!("\x7b:x\x7d\x7b:x\x7d", fastrand::u64(r), fastrand::u64(r))` with
`r = 1_000_000_000_000..10_000_000_000_000`; the draws `a` and `b` are the
two values `fastrand` returns. -/
def Session.generate_code (_s : Session) (a b : Nat) : String :=
  natToBase 16 a ++ natToBase 16 b

/-- Embeds `Session::create_user_session` (src/session.rs lines 37-50): same
pattern as the OTP issuer; the in-memory `put` never fails, so the `Ok`
branch is the only reachable one. -/
def Session.create_user_session (s : Session) (user : String) (a b now : Nat) :
    String × Session :=
  (s.generate_code a b,
    { s with db := s.db.put (SessionItem.new (s.generate_code a b) user s.keep_alive now) })

/-- Embeds `Session::is_valid` (src/session.rs lines 53-56). -/
def Session.is_valid (s : Session) (code user : String) (now : Nat) : Bool :=
  (s.db.get code user now).isSome

/-- Embeds `Session::remove` (src/session.rs lines 59-66). -/
def Session.remove (s : Session) (code user : String) : Option String × Session :=
  (if (s.db.remove code user).1 then some code else none,
    { s with db := (s.db.remove code user).2 })

/-- Embeds `Session::dbsize` (src/session.rs lines 69-71). -/
def Session.dbsize (s : Session) : Nat :=
  s.db.dbsize

/-! Association-list lemmas: behaviour of `insertKV`, `lookupKV`, `removeKV`. -/

theorem lookupKV_insertKV_self (l : List (String × Nat)) (key : String) (val : Nat) :
    lookupKV (insertKV l key val) key = some val := by
  induction l with
  | nil => simp [insertKV, lookupKV]
  | cons p rest ih =>
    obtain ⟨k, v⟩ := p
    by_cases h : k = key
    · simp [insertKV, lookupKV, h]
    · simp [insertKV, lookupKV, h, ih]

theorem lookupKV_insertKV_ne (l : List (String × Nat)) (key other : String) (val : Nat)
    (h : other ≠ key) : lookupKV (insertKV l key val) other = lookupKV l other := by
  induction l with
  | nil => simp [insertKV, lookupKV, Ne.symm h]
  | cons p rest ih =>
    obtain ⟨k, v⟩ := p
    by_cases hk : k = key
    · subst hk
      simp [insertKV, lookupKV, Ne.symm h]
    · simp [insertKV, lookupKV, hk, ih]

theorem insertKV_length_of_absent (l : List (String × Nat)) (key : String) (val : Nat)
    (h : lookupKV l key = none) : (insertKV l key val).length = l.length + 1 := by
  induction l with
  | nil => simp [insertKV]
  | cons p rest ih =>
    obtain ⟨k, v⟩ := p
    by_cases hk : k = key
    · simp [lookupKV, hk] at h
    · simp only [lookupKV, hk, if_false] at h
      simp [insertKV, hk, ih h]

theorem insertKV_length_of_present (l : List (String × Nat)) (key : String) (val e : Nat)
    (h : lookupKV l key = some e) : (insertKV l key val).length = l.length := by
  induction l with
  | nil => simp [lookupKV] at h
  | cons p rest ih =>
    obtain ⟨k, v⟩ := p
    by_cases hk : k = key
    · simp [insertKV, hk]
    · simp only [lookupKV, hk, if_false] at h
      simp [insertKV, hk, ih h]

theorem lookupKV_removeKV_self (l : List (String × Nat)) (key : String) :
    lookupKV (removeKV l key) key = none := by
  induction l with
  | nil => simp [removeKV, lookupKV]
  | cons p rest ih =>
    obtain ⟨k, v⟩ := p
    by_cases hk : k = key
    · simp [removeKV, hk, ih]
    · simp [removeKV, lookupKV, hk, ih]

/-! String lemmas: the composite key `code ++ ":" ++ user` splits
unambiguously when the code contains no separator character. -/

theorem string_data_append (a b : String) : (a ++ b).data = a.data ++ b.data := by
  cases a
  cases b
  rfl

theorem sep_split_unique : ∀ (l1 l2 r1 r2 : List Char), ':' ∉ l1 → ':' ∉ l2 →
    l1 ++ ':' :: r1 = l2 ++ ':' :: r2 → l1 = l2 ∧ r1 = r2
  | [], [], _, _, _, _, heq => ⟨rfl, by simpa using heq⟩
  | [], c :: t, _, _, _, h2, heq => by
    simp only [List.nil_append, List.cons_append, List.cons.injEq] at heq
    refine absurd ?_ h2
    rw [← heq.1]
    exact List.mem_cons_self ':' t
  | c :: t, [], _, _, h1, _, heq => by
    simp only [List.nil_append, List.cons_append, List.cons.injEq] at heq
    refine absurd ?_ h1
    rw [heq.1]
    exact List.mem_cons_self ':' t
  | c :: t, c2 :: t2, r1, r2, h1, h2, heq => by
    simp only [List.cons_append, List.cons.injEq] at heq
    have h1t : ':' ∉ t := fun hm => h1 (List.mem_cons_of_mem c hm)
    have h2t : ':' ∉ t2 := fun hm => h2 (List.mem_cons_of_mem c2 hm)
    obtain ⟨ht, hr⟩ := sep_split_unique t t2 r1 r2 h1t h2t heq.2
    exact ⟨by rw [heq.1, ht], hr⟩

theorem create_key_data (s : DataStore) (code user : String) :
    (s.create_key code user).data = code.data ++ ':' :: user.data := by
  show (code ++ ":" ++ user).data = code.data ++ ':' :: user.data
  rw [string_data_append, string_data_append, List.append_assoc]
  rfl

/-! Digit-rendering lemmas for `renderAux` and `natToBase`. -/

/-- Lowercase hexadecimal alphabet, as produced by the Rust formatter `\x7b:x\x7d`. -/
def hexDigits : List Char :=
  (List.range 16).map digitChar

theorem digitChar_isDigit (d : Nat) (h : d < 10) : (digitChar d).isDigit = true := by
  interval_cases d <;> decide

theorem digitChar_mem_hexDigits (d : Nat) (h : d < 16) : digitChar d ∈ hexDigits :=
  List.mem_map_of_mem digitChar (List.mem_range.mpr h)

theorem digitChar_ne_zero_char (d : Nat) (h1 : 1 ≤ d) (h16 : d < 16) : digitChar d ≠ '0' := by
  interval_cases d <;> decide

theorem digitChar_ne_colon (d : Nat) : digitChar d ≠ ':' := by
  by_cases h : d < 16
  · interval_cases d <;> decide
  · have h10 : ¬d < 10 := by omega
    simp only [digitChar, if_neg h10, if_neg h]
    decide

theorem renderAux_ne_nil (base fuel n : Nat) (h : 0 < fuel) : renderAux base fuel n ≠ [] := by
  cases fuel with
  | zero => omega
  | succ f =>
    unfold renderAux
    by_cases hn : n < base <;> simp [hn]

theorem renderAux_length (base : Nat) (hb : 2 ≤ base) :
    ∀ fuel k n, n < fuel → base ^ k ≤ n → n < base ^ (k + 1) →
      (renderAux base fuel n).length = k + 1 := by
  intro fuel
  induction fuel with
  | zero => intro k n h _ _; exact (Nat.not_lt_zero n h).elim
  | succ f ih =>
    intro k n hfuel hlo hhi
    unfold renderAux
    by_cases hn : n < base
    · have hk : k = 0 := by
        by_contra hk0
        have : base ≤ base ^ k := Nat.le_self_pow hk0 base
        omega
      simp [hn, hk]
    · have hbn : base ≤ n := Nat.le_of_not_lt hn
      have hk1 : k ≠ 0 := by
        rintro rfl
        rw [pow_one] at hhi
        omega
      obtain ⟨j, rfl⟩ : ∃ j, k = j + 1 := ⟨k - 1, by omega⟩
      have hpos : 0 < base := by omega
      have hdivlo : base ^ j ≤ n / base := by
        rw [Nat.le_div_iff_mul_le hpos]
        calc base ^ j * base = base ^ (j + 1) := (pow_succ base j).symm
          _ ≤ n := hlo
      have hdivhi : n / base < base ^ (j + 1) := by
        rw [Nat.div_lt_iff_lt_mul hpos]
        calc n < base ^ (j + 1 + 1) := hhi
          _ = base ^ (j + 1) * base := pow_succ base (j + 1)
      have hfuel2 : n / base < f := by
        have hlt : n / base < n := Nat.div_lt_self (by omega) (by omega)
        omega
      have hlen := ih j (n / base) hfuel2 hdivlo hdivhi
      simp [hn, List.length_append, hlen]

theorem renderAux_mem (base : Nat) (hb : 0 < base) :
    ∀ fuel n c, c ∈ renderAux base fuel n → ∃ d, d < base ∧ c = digitChar d := by
  intro fuel
  induction fuel with
  | zero => intro n c h; simp [renderAux] at h
  | succ f ih =>
    intro n c h
    unfold renderAux at h
    by_cases hn : n < base
    · simp [hn] at h
      exact ⟨n, hn, h⟩
    · simp [hn] at h
      rcases h with h | h
      · exact ih _ _ h
      · exact ⟨n % base, Nat.mod_lt n hb, h⟩

theorem renderAux_head (base : Nat) (hb : 2 ≤ base) :
    ∀ fuel n, n < fuel → 1 ≤ n →
      ∃ d, 1 ≤ d ∧ d < base ∧ (renderAux base fuel n).head? = some (digitChar d) := by
  intro fuel
  induction fuel with
  | zero => intro n h _; exact (Nat.not_lt_zero n h).elim
  | succ f ih =>
    intro n hfuel hn1
    unfold renderAux
    by_cases hn : n < base
    · exact ⟨n, hn1, hn, by simp [hn]⟩
    · have hbn : base ≤ n := Nat.le_of_not_lt hn
      have hdiv1 : 1 ≤ n / base := by
        rw [Nat.le_div_iff_mul_le (by omega)]
        omega
      have hfuel2 : n / base < f := by
        have hlt : n / base < n := Nat.div_lt_self (by omega) (by omega)
        omega
      obtain ⟨d, hd1, hd2, hd3⟩ := ih (n / base) hfuel2 hdiv1
      refine ⟨d, hd1, hd2, ?_⟩
      cases hL : renderAux base f (n / base) with
      | nil => exact absurd hL (renderAux_ne_nil base f _ (by omega))
      | cons a t =>
        rw [hL] at hd3
        simp at hd3
        simp [hn, hL, hd3]

theorem natToBase_length (base n k : Nat) (hb : 2 ≤ base)
    (hlo : base ^ k ≤ n) (hhi : n < base ^ (k + 1)) :
    (natToBase base n).length = k + 1 := by
  show (renderAux base (n + 1) n).length = k + 1
  exact renderAux_length base hb (n + 1) k n (Nat.lt_succ_self n) hlo hhi

theorem colon_not_mem_natToBase (base n : Nat) (hb : 0 < base) :
    ':' ∉ (natToBase base n).data := by
  intro hmem
  obtain ⟨d, _, hd⟩ := renderAux_mem base hb (n + 1) n ':' hmem
  exact digitChar_ne_colon d hd.symm

theorem natToBase_head_ne_zero (base n : Nat) (hb : 2 ≤ base) (h16 : base ≤ 16)
    (hn : 1 ≤ n) : (natToBase base n).data.head? ≠ some '0' := by
  obtain ⟨d, hd1, hd2, hd3⟩ := renderAux_head base hb (n + 1) n (Nat.lt_succ_self n) hn
  show (renderAux base (n + 1) n).head? ≠ some '0'
  rw [hd3]
  intro hcontra
  exact digitChar_ne_zero_char d hd1 (by omega) (by simpa using hcontra)

theorem natToBase_ten_digits (n : Nat) :
    ∀ c ∈ (natToBase 10 n).data, c.isDigit = true := by
  intro c hc
  obtain ⟨d, hd, rfl⟩ := renderAux_mem 10 (by omega) (n + 1) n c hc
  exact digitChar_isDigit d hd

theorem natToBase_sixteen_hex (n : Nat) :
    ∀ c ∈ (natToBase 16 n).data, c ∈ hexDigits := by
  intro c hc
  obtain ⟨d, hd, rfl⟩ := renderAux_mem 16 (by omega) (n + 1) n c hc
  exact digitChar_mem_hexDigits d hd

/-! Store/issuer interaction lemmas. -/

/-- Codes in the practical domain of the issuers: any output of the OTP
code generator or of the session code generator. -/
def issuerCode (c : String) : Prop :=
  (∃ rnd, c = Otp.new.generate_code rnd) ∨ (∃ a b, c = Session.new.generate_code a b)

theorem issuerCode_no_colon (c : String) (h : issuerCode c) : ':' ∉ c.data := by
  rcases h with ⟨rnd, rfl⟩ | ⟨a, b, rfl⟩
  · exact colon_not_mem_natToBase 10 rnd (by omega)
  · show ':' ∉ (natToBase 16 a ++ natToBase 16 b).data
    rw [string_data_append]
    intro hm
    rcases List.mem_append.mp hm with hm | hm
    · exact colon_not_mem_natToBase 16 a (by omega) hm
    · exact colon_not_mem_natToBase 16 b (by omega) hm

theorem get_put_new_self (s : DataStore) (code user : String) (ka now tnow : Nat) :
    (s.put (SessionItem.new code user ka now)).get code user tnow =
      if now + ka ≤ tnow then none else some ⟨code, user, now + ka⟩ := by
  unfold DataStore.get DataStore.put DataStore.create_key SessionItem.new
  rw [lookupKV_insertKV_self]
  simp [SessionItem.has_expired]

theorem get_put_new_other (s : DataStore) (codeI userI code user : String) (ka now tnow : Nat)
    (hne : s.create_key code user ≠ s.create_key codeI userI) :
    (s.put (SessionItem.new codeI userI ka now)).get code user tnow =
      s.get code user tnow := by
  unfold DataStore.create_key at hne
  unfold DataStore.get DataStore.put DataStore.create_key SessionItem.new
  rw [lookupKV_insertKV_ne s.db _ _ _ hne]

theorem create_key_user_inj (s : DataStore) (code u1 u2 : String)
    (h : s.create_key code u1 = s.create_key code u2) : u1 = u2 := by
  have hd := congrArg String.data h
  rw [create_key_data, create_key_data] at hd
  have htail := List.append_cancel_left hd
  simp only [List.cons.injEq, true_and] at htail
  exact String.ext htail

/-! Claims. -/

/-- C1: the composite key `code ++ ":" ++ user` is injective over the
practical domain of issuer-generated codes (decimal OTP renderings and
hexadecimal session renderings, none of which contain the separator)
paired with arbitrary user strings: equal keys force equal pairs, so
distinct pairs yield distinct keys. -/
theorem create_key_injective (s1 s2 : DataStore) (c1 u1 c2 u2 : String)
    (hc1 : issuerCode c1) (hc2 : issuerCode c2)
    (heq : s1.create_key c1 u1 = s2.create_key c2 u2) :
    c1 = c2 ∧ u1 = u2 := by
  have hd := congrArg String.data heq
  rw [create_key_data, create_key_data] at hd
  obtain ⟨h1, h2⟩ := sep_split_unique c1.data c2.data u1.data u2.data
    (issuerCode_no_colon c1 hc1) (issuerCode_no_colon c2 hc2) hd
  exact ⟨String.ext h1, String.ext h2⟩

theorem create_key_injective_witness :
    ("123456" : String) = "123456" ∧ ("jack" : String) = "jack" :=
  create_key_injective DataStore.create DataStore.create "123456" "jack" "123456" "jack"
    (Or.inl ⟨123456, by decide⟩) (Or.inl ⟨123456, by decide⟩) rfl

/-- C2: DataStore.get returns none when the composite key is absent, none
when an entry is present but its stored expiration satisfies
expires ≤ now, and the rebuilt record otherwise; absence and expiry are
both reported through the empty Option, never as an error. -/
theorem datastore_get_trichotomy (s : DataStore) (code user : String) (now : Nat) :
    (lookupKV s.db (s.create_key code user) = none → s.get code user now = none) ∧
    (∀ e, lookupKV s.db (s.create_key code user) = some e → e ≤ now →
      s.get code user now = none) ∧
    (∀ e, lookupKV s.db (s.create_key code user) = some e → now < e →
      s.get code user now = some { code := code, user := user, expires := e }) := by
  refine ⟨?_, ?_, ?_⟩
  · intro h
    simp [DataStore.get, h]
  · intro e h he
    simp [DataStore.get, h, SessionItem.has_expired, he]
  · intro e h he
    simp [DataStore.get, h, SessionItem.has_expired, show ¬e ≤ now by omega]

theorem datastore_get_trichotomy_witness :
    DataStore.get ⟨[("a:b", 5)]⟩ "a" "b" 7 = none :=
  (datastore_get_trichotomy ⟨[("a:b", 5)]⟩ "a" "b" 7).2.1 5 (by decide) (by decide)

/-- C3: a put whose composite key is absent grows dbsize by exactly 1; a
put whose key is present leaves dbsize unchanged and overwrites the stored
expiration (last-write-wins, no error); dbsize is the raw count of entries
physically present, with no expiry filtering. -/
theorem datastore_put_size (s : DataStore) (item : SessionItem) :
    (lookupKV s.db (s.create_key item.code item.user) = none →
      (s.put item).dbsize = s.dbsize + 1) ∧
    (∀ e, lookupKV s.db (s.create_key item.code item.user) = some e →
      (s.put item).dbsize = s.dbsize ∧
      lookupKV (s.put item).db (s.create_key item.code item.user) = some item.expires) ∧
    (s.put item).dbsize = (s.put item).db.length := by
  refine ⟨?_, ?_, rfl⟩
  · intro h
    exact insertKV_length_of_absent s.db _ item.expires h
  · intro e h
    exact ⟨insertKV_length_of_present s.db _ item.expires e h,
      lookupKV_insertKV_self s.db _ item.expires⟩

theorem datastore_put_size_witness :
    (DataStore.put ⟨[]⟩ ⟨"a", "b", 5⟩).dbsize = DataStore.dbsize ⟨[]⟩ + 1 :=
  (datastore_put_size ⟨[]⟩ ⟨"a", "b", 5⟩).1 (by decide)

/-- C9: DataStore.get never modifies the store: the Rust method takes
`&self`, embedded as the state-passing getS whose resulting store is the
input store with identical contents and dbsize; pruning of expired entries
happens only through remove or a put overwrite. -/
theorem datastore_get_frame (s : DataStore) (code user : String) (now : Nat) :
    (s.getS code user now).2 = s ∧
    (s.getS code user now).2.db = s.db ∧
    (s.getS code user now).2.dbsize = s.dbsize :=
  ⟨rfl, rfl, rfl⟩

/-- C4: a credential issued with lifetime 0 stores expiration now + 0 = now,
the expiry comparison (expires ≤ now) already holds at issuance, and
is_valid is false immediately after create_user_otp at the same instant. -/
theorem otp_lifetime_zero_invalid (o : Otp) (user : String) (rnd now : Nat)
    (h : o.keep_alive = 0) :
    (SessionItem.new (o.generate_code rnd) user o.keep_alive now).expires = now ∧
    (SessionItem.new (o.generate_code rnd) user o.keep_alive now).has_expired now = true ∧
    (o.create_user_otp user rnd now).2.is_valid
      (o.create_user_otp user rnd now).1 user now = false := by
  refine ⟨by simp [SessionItem.new, h], by simp [SessionItem.new, SessionItem.has_expired, h], ?_⟩
  show ((o.db.put (SessionItem.new (o.generate_code rnd) user o.keep_alive now)).get
      (o.generate_code rnd) user now).isSome = false
  rw [get_put_new_self]
  simp [h]

theorem otp_lifetime_zero_invalid_witness :
    (Otp.create_user_otp ⟨0, DataStore.create⟩ "jack" 123456 50).2.is_valid
      (Otp.create_user_otp ⟨0, DataStore.create⟩ "jack" 123456 50).1 "jack" 50 = false :=
  (otp_lifetime_zero_invalid ⟨0, DataStore.create⟩ "jack" 123456 50 rfl).2.2

/-- C5: with lifetime at least 1, immediately after create_user_otp the
issued code validates for the issuing user, and does not validate for any
other user whose (code, other) key had no prior entry in the store. -/
theorem otp_issue_is_valid (o : Otp) (user other : String) (rnd now : Nat)
    (hl : 1 ≤ o.keep_alive) (hne : other ≠ user)
    (habs : lookupKV o.db.db (o.db.create_key (o.generate_code rnd) other) = none) :
    (o.create_user_otp user rnd now).2.is_valid
      (o.create_user_otp user rnd now).1 user now = true ∧
    (o.create_user_otp user rnd now).2.is_valid
      (o.create_user_otp user rnd now).1 other now = false := by
  constructor
  · show ((o.db.put (SessionItem.new (o.generate_code rnd) user o.keep_alive now)).get
        (o.generate_code rnd) user now).isSome = true
    rw [get_put_new_self, if_neg (by omega)]
    rfl
  · show ((o.db.put (SessionItem.new (o.generate_code rnd) user o.keep_alive now)).get
        (o.generate_code rnd) other now).isSome = false
    have hkey : o.db.create_key (o.generate_code rnd) other ≠
        o.db.create_key (o.generate_code rnd) user :=
      fun hc => hne (create_key_user_inj o.db (o.generate_code rnd) other user hc)
    rw [get_put_new_other o.db (o.generate_code rnd) user (o.generate_code rnd) other
      o.keep_alive now now hkey]
    unfold DataStore.get
    rw [habs]
    rfl

theorem otp_issue_is_valid_witness :
    (Otp.new.create_user_otp "jack" 123456 0).2.is_valid
      (Otp.new.create_user_otp "jack" 123456 0).1 "jack" 0 = true ∧
    (Otp.new.create_user_otp "jack" 123456 0).2.is_valid
      (Otp.new.create_user_otp "jack" 123456 0).1 "john" 0 = false :=
  otp_issue_is_valid Otp.new "jack" "john" 123456 0 (by decide) (by decide) (by decide)

/-- C6: the store-level remove deletes by composite key with no expiry
check and returns true exactly when an entry was physically present; the
issuer-level remove returns the code exactly when the store removed
something; removing the same pair again returns none, and is_valid is
false after a remove. -/
theorem otp_remove_spec (o : Otp) (code user : String) (now : Nat) :
    ((o.db.remove code user).1 = true ↔
      (lookupKV o.db.db (o.db.create_key code user)).isSome = true) ∧
    ((o.remove code user).1 =
      if (lookupKV o.db.db (o.db.create_key code user)).isSome then some code else none) ∧
    (((o.remove code user).2.remove code user).1 = none) ∧
    ((o.remove code user).2.is_valid code user now = false) := by
  refine ⟨Iff.rfl, rfl, ?_, ?_⟩
  · simp [Otp.remove, DataStore.remove, DataStore.create_key, lookupKV_removeKV_self]
  · simp [Otp.remove, Otp.is_valid, DataStore.remove, DataStore.get, DataStore.create_key,
      lookupKV_removeKV_self]

/-- C7: Otp.generate_code renders the random draw from [100000, 1000000) in
decimal: the result is exactly 6 characters, every character is an ASCII
decimal digit, and the first character is not a zero. -/
theorem otp_generate_code_spec (o : Otp) (rnd : Nat)
    (h1 : 100000 ≤ rnd) (h2 : rnd < 1000000) :
    o.generate_code rnd = natToBase 10 rnd ∧
    (o.generate_code rnd).length = 6 ∧
    (∀ c ∈ (o.generate_code rnd).data, c.isDigit = true) ∧
    (o.generate_code rnd).data.head? ≠ some '0' := by
  refine ⟨rfl, ?_, natToBase_ten_digits rnd,
    natToBase_head_ne_zero 10 rnd (by omega) (by omega) (by omega)⟩
  exact natToBase_length 10 rnd 5 (by omega)
    (by rw [show (10:Nat) ^ 5 = 100000 by norm_num]; exact h1)
    (by rw [show (10:Nat) ^ (5 + 1) = 1000000 by norm_num]; exact h2)

theorem otp_generate_code_spec_witness :
    Otp.new.generate_code 123456 = natToBase 10 123456 ∧
    (Otp.new.generate_code 123456).length = 6 ∧
    (∀ c ∈ (Otp.new.generate_code 123456).data, c.isDigit = true) ∧
    (Otp.new.generate_code 123456).data.head? ≠ some '0' :=
  otp_generate_code_spec Otp.new 123456 (by decide) (by decide)

/-- C8: Session.generate_code is the concatenation of the lowercase
hexadecimal renderings of the two independent draws from
[1000000000000, 10000000000000); each rendering uses only lowercase hex
characters and carries no zero-padding (its leading character is not '0'). -/
theorem session_generate_code_spec (s : Session) (a b : Nat)
    (ha1 : 1000000000000 ≤ a) (ha2 : a < 10000000000000)
    (hb1 : 1000000000000 ≤ b) (hb2 : b < 10000000000000) :
    s.generate_code a b = natToBase 16 a ++ natToBase 16 b ∧
    (s.generate_code a b).data = (natToBase 16 a).data ++ (natToBase 16 b).data ∧
    (∀ c ∈ (s.generate_code a b).data, c ∈ hexDigits) ∧
    (natToBase 16 a).data.head? ≠ some '0' ∧
    (natToBase 16 b).data.head? ≠ some '0' := by
  refine ⟨rfl, string_data_append _ _, ?_,
    natToBase_head_ne_zero 16 a (by omega) (by omega) (by omega),
    natToBase_head_ne_zero 16 b (by omega) (by omega) (by omega)⟩
  intro c hc
  rw [show (s.generate_code a b).data = (natToBase 16 a).data ++ (natToBase 16 b).data
    from string_data_append _ _] at hc
  rcases List.mem_append.mp hc with h | h
  · exact natToBase_sixteen_hex a c h
  · exact natToBase_sixteen_hex b c h

theorem session_generate_code_spec_witness :
    Session.new.generate_code 1000000000000 1099511627776 =
      natToBase 16 1000000000000 ++ natToBase 16 1099511627776 ∧
    (Session.new.generate_code 1000000000000 1099511627776).data =
      (natToBase 16 1000000000000).data ++ (natToBase 16 1099511627776).data ∧
    (∀ c ∈ (Session.new.generate_code 1000000000000 1099511627776).data, c ∈ hexDigits) ∧
    (natToBase 16 1000000000000).data.head? ≠ some '0' ∧
    (natToBase 16 1099511627776).data.head? ≠ some '0' :=
  session_generate_code_spec Session.new 1000000000000 1099511627776
    (by decide) (by decide) (by decide) (by decide)

theorem natToBase_sixteen_length_session_range (a : Nat)
    (h1 : 1000000000000 ≤ a) (h2 : a < 10000000000000) :
    10 ≤ (natToBase 16 a).length ∧ (natToBase 16 a).length ≤ 11 := by
  by_cases hc : a < 1099511627776
  · have hlen := natToBase_length 16 a 9 (by omega)
      (by rw [show (16:Nat) ^ 9 = 68719476736 by norm_num]; omega)
      (by rw [show (16:Nat) ^ (9 + 1) = 1099511627776 by norm_num]; omega)
    omega
  · have hlen := natToBase_length 16 a 10 (by omega)
      (by rw [show (16:Nat) ^ 10 = 1099511627776 by norm_num]; omega)
      (by rw [show (16:Nat) ^ (10 + 1) = 17592186044416 by norm_num]; omega)
    omega

/-- C10: for draws in [1000000000000, 10000000000000) the session code has
between 20 and 22 characters, and a draw below 16^10 = 1099511627776 (for
example 1000000000000 itself) renders in 10 hex digits, so a length
strictly below 22 occurs and a 22-character code is not guaranteed. -/
theorem session_code_length_bounds :
    (∀ (s : Session) (a b : Nat), 1000000000000 ≤ a → a < 10000000000000 →
      1000000000000 ≤ b → b < 10000000000000 →
      20 ≤ (s.generate_code a b).length ∧ (s.generate_code a b).length ≤ 22) ∧
    (Session.new.generate_code 1000000000000 1000000000000).length < 22 := by
  constructor
  · intro s a b ha1 ha2 hb1 hb2
    have hlen : (s.generate_code a b).length =
        (natToBase 16 a).length + (natToBase 16 b).length := by
      show (natToBase 16 a ++ natToBase 16 b).data.length = _
      rw [string_data_append, List.length_append]
      rfl
    have hba := natToBase_sixteen_length_session_range a ha1 ha2
    have hbb := natToBase_sixteen_length_session_range b hb1 hb2
    omega
  · decide

theorem session_code_length_bounds_witness :
    (20 ≤ (Session.new.generate_code 1000000000000 1000000000000).length ∧
      (Session.new.generate_code 1000000000000 1000000000000).length ≤ 22) ∧
    (Session.new.generate_code 1000000000000 1000000000000).length < 22 :=
  ⟨session_code_length_bounds.1 Session.new 1000000000000 1000000000000
      (by decide) (by decide) (by decide) (by decide),
    session_code_length_bounds.2⟩
